import Mathlib

/-!
Verification of the eventd event-ingestion and liveness-tracking daemon
(backend/eventd/eventd.go) and the postgres entity-config wrapper
(backend/store/postgres/entity_configs_schema.go), as a shallow embedding:
pure Go functions become Lean functions; calls into external collaborators
(store, bus, liveness client) are modelled by oracle fields of an
environment record, and each handler returns a trace recording the calls it
made together with its Go return values.
-/

namespace Eventd

/-- Classified Go errors, as eventd distinguishes them: store.ErrNotFound,
store.ErrInternal, and every other non-nil error. -/
inductive GoErr
  | notFound
  | internal
  | other
  deriving DecidableEq, Repr

/-- Check data model: configuration fields (name, namespace, command,
interval, ttl, roundRobin) and runtime fields (status, state, executed,
output, history, occurrences, silenced, isSilenced), from corev2.Check as
eventd uses it. Ttl is int64 (the -1 deleted sentinel must be representable),
Status is uint32 (only compared against zero). -/
structure Check where
  name : String
  nspace : String
  command : String
  interval : Nat
  ttl : Int
  roundRobin : Bool
  status : Nat
  state : String
  executed : Int
  output : String
  history : List Nat
  occurrences : Int
  silenced : List String
  isSilenced : Bool
  deriving DecidableEq, Repr

/-- Entity fields eventd reads: namespace, name and the entity class. -/
structure Entity where
  nspace : String
  name : String
  entityClass : String
  deriving DecidableEq, Repr

/-- A corev2.Event: the check is optional (a nil Check marks a metrics-only
event, per Event.HasCheck). -/
structure Event where
  entity : Entity
  check : Option Check
  timestamp : Int
  deriving DecidableEq, Repr

/-- An event that certainly carries a check: what the event store returns
for stored check events, and what flows through the check branch of
handleMessage. -/
structure CheckEvent where
  entity : Entity
  check : Check
  timestamp : Int
  deriving DecidableEq, Repr

def CheckEvent.toEvent (ce : CheckEvent) : Event :=
  { entity := ce.entity, check := some ce.check, timestamp := ce.timestamp }

/-- const deletedEventSentinel = -1 -/
def deletedEventSentinel : Int := -1

/-- The keepalive check name: the literal "keepalive" that dead passes to
GetEventByEntityCheck; corev2.KeepaliveCheckName and
keepalived.KeepaliveCheckName hold the same string. -/
def keepaliveCheckName : String := "keepalive"

/-- Modelled from the spec: corev2.EventFailingState, the "failing" check
state set by failure synthesis. -/
def eventFailingState : String := "failing"

/-- Modelled from the spec: corev2.EntityProxyClass, the class of proxy
entities. -/
def entityProxyClass : String := "proxy"

/-- capacity of e.errChan, from make(chan error, 1) in New. -/
def errChanCapacity : Nat := 1

/-! ## Key derivation (eventKey) and parsing (parseKey) -/

def joinNonempty : List String → String
  | [] => ""
  | [p] => p
  | p :: ps => p ++ "/" ++ joinNonempty ps

/-- Go path.Join for components that are free of slashes and dot segments:
empty components are dropped and the rest are joined with "/". -/
def pathJoin (parts : List String) : String :=
  joinNonempty (parts.filter (fun p => !(p == "")))

/-- eventKey creates a key to identify the event for liveness monitoring:
for a round robin check with no proxy entity the entity name is omitted. -/
def eventKey (event : CheckEvent) : String :=
  if event.check.roundRobin && !(event.entity.entityClass == entityProxyClass) then
    pathJoin [event.check.nspace, event.check.name]
  else
    pathJoin [event.entity.nspace, event.check.name, event.entity.name]

/-- strings.Split(key, "/") at the Char level: '/' is one byte, so the byte
split of valid UTF-8 coincides with this character split. -/
def splitOnSlash (s : List Char) : List (List Char) :=
  s.foldr
    (fun ch acc =>
      if ch = '/' then [] :: acc
      else
        match acc with
        | h :: t => (ch :: h) :: t
        | [] => [[ch]])
    [[]]

/-- parseKey: a key of 2 slash-separated parts is (namespace, check, "");
3 parts are (namespace, check, entity); anything else is a "bad key" error
(modelled as none). -/
def parseKey (key : String) : Option (String × String × String) :=
  match splitOnSlash key.data with
  | [ns, c] => some (String.mk ns, String.mk c, "")
  | [ns, c, e] => some (String.mk ns, String.mk c, String.mk e)
  | _ => none

/-! ## The fatal-error channel send inside the dead callback

In `dead` (and in handleFailure / createFailedCheckEvent) an internal store
error is forwarded with `select { case errChan <- err: case <-ctx.Done(): }`.
This select has no default case: with the 1-slot channel free the send fires
at once; with the channel already full the goroutine waits until the channel
is drained or the context is cancelled. -/

inductive SendOutcome
  | sent
  | droppedOnCancel
  | blocked
  deriving DecidableEq, Repr

/-- Outcome of the two-way select sending on the fatal-error channel:
`errChanFull` is whether the 1-slot channel already holds an error, and
`cancelled` whether the context gets cancelled while the send is pending. -/
def fatalErrSelect (errChanFull cancelled : Bool) : SendOutcome :=
  if errChanFull = false then .sent
  else if cancelled then .droppedOnCancel
  else .blocked

/-- The forwarding guard around the select: only a classified internal store
error is sent to the fatal-error channel. -/
def forwardIfInternal (e : GoErr) (errChanFull cancelled : Bool) : Option SendOutcome :=
  if e = .internal then some (fatalErrSelect errChanFull cancelled) else none

/-! ## The dead callback -/

/-- Oracle environment for one invocation of the dead callback: the context
state, the key, leadership, and the results the store collaborators would
return for the three retrievals the callback can perform. -/
structure DeadEnv where
  /-- ctx.Err() != nil at entry -/
  cancelled : Bool
  key : String
  leader : Bool
  /-- e.store.Get(req) for the entity config (the resource itself is unused) -/
  entityGet : Except GoErr Unit
  /-- GetEventByEntityCheck(ctx, entity, "keepalive"): nil event, nil error
  is possible -/
  keepaliveGet : Except GoErr (Option CheckEvent)
  /-- GetEventByEntityCheck(ctx, entity, check) -/
  eventGet : Except GoErr (Option CheckEvent)
  /-- whether e.errChan already holds an error -/
  errChanFull : Bool
  /-- whether the context gets cancelled while a fatal-error send is pending -/
  cancelledDuringForward : Bool
  /-- result of e.handleFailure when the leader invokes it (logged only) -/
  handleFailureErr : Option GoErr

/-- What one invocation of dead did: the bury return value, the outcome of
the fatal-error forwarding performed by dead itself (if any), and whether
handleFailure was invoked. -/
structure DeadResult where
  bury : Bool
  fatalForward : Option SendOutcome
  failureAttempted : Bool
  deriving DecidableEq, Repr

/-- The dead callback, transcribed from Eventd.dead: early return on a
cancelled context or a malformed key; bury round-robin keys (no entity
component); bury when the entity config is gone; bury when the latest
keepalive is failing; bury when the (entity, check) event is gone; forward
internal errors from the entity-config and event retrievals; let the leader
attempt failure escalation; return "do not bury" otherwise. -/
def dead (env : DeadEnv) : DeadResult :=
  if env.cancelled then ⟨false, none, false⟩
  else
    match parseKey env.key with
    | none => ⟨false, none, false⟩
    | some (_ns, _check, entity) =>
      if entity = "" then ⟨true, none, false⟩
      else
        match env.entityGet with
        | .error .notFound => ⟨true, none, false⟩
        | .error e =>
          ⟨false, forwardIfInternal e env.errChanFull env.cancelledDuringForward, false⟩
        | .ok _ =>
          match env.keepaliveGet with
          | .error _ => ⟨false, none, false⟩
          | .ok keepalive =>
            if (match keepalive with
                | some k => decide (0 < k.check.status)
                | none => false) then ⟨true, none, false⟩
            else
              match env.eventGet with
              | .error e =>
                ⟨false, forwardIfInternal e env.errChanFull env.cancelledDuringForward, false⟩
              | .ok none => ⟨true, none, false⟩
              | .ok (some _event) =>
                if env.leader then ⟨false, none, true⟩ else ⟨false, none, false⟩

/-! Spec-side reading of claim C1, written from the claim's words rather
than from the code: the next four definitions name the claim's three bury
conditions and assemble them. -/

/-- Claim C1 condition: "the entity config no longer exists (store
not-found)". -/
def entityConfigGone (env : DeadEnv) : Bool :=
  match env.entityGet with
  | .error .notFound => true
  | _ => false

/-- Claim C1 condition: "the latest keepalive event for the entity exists
with nonzero status" (reachable only once the entity config was retrieved
without error). -/
def keepaliveFailing (env : DeadEnv) : Bool :=
  match env.entityGet, env.keepaliveGet with
  | .ok _, .ok (some k) => decide (0 < k.check.status)
  | _, _ => false

/-- Claim C1 condition: "no (entity, check) event exists" (reachable only
once the entity config and the keepalive event were retrieved without
error). -/
def checkEventMissing (env : DeadEnv) : Bool :=
  match env.entityGet, env.keepaliveGet, env.eventGet with
  | .ok _, .ok _, .ok none => true
  | _, _, _ => false

/-- Claim C1 as stated: "do not bury" on a cancelled context or an unparsable
key, "bury" for a key with no entity component, otherwise "bury" exactly when
one of the three conditions holds — every other case (retrieval errors, the
leader escalation path, a non-leader) is "do not bury". -/
def deadSpecified (env : DeadEnv) : Bool :=
  if env.cancelled then false
  else
    match parseKey env.key with
    | none => false
    | some (_ns, _check, entity) =>
      if entity = "" then true
      else entityConfigGone env || keepaliveFailing env || checkEventMissing env

/-! ## handleMessage -/

/-- Modelled from the spec: getSilenced attaches the matching silenced
entries to Check.Silenced; handleMessage then sets IsSilenced when any
entries are attached (`if len(event.Check.Silenced) > 0`). -/
def applySilenced (chk : Check) (entries : List String) : Check :=
  let chk := { chk with silenced := chk.silenced ++ entries }
  if 0 < chk.silenced.length then { chk with isSilenced := true } else chk

/-- Oracle environment for one handleMessage call: the received message and
the results each external collaborator would return. -/
structure HMEnv where
  /-- msg.(*corev2.Event): none models a non-Event payload -/
  msg : Option Event
  /-- event.Validate() == nil (corev2 validation, external to this package) -/
  validateOk : Bool
  /-- createProxyEntity result: none is success -/
  proxyResult : Option GoErr
  /-- silenced entries the cache lookup attaches -/
  silencedEntries : List String
  /-- eventStore.UpdateEvent: the merged event and the previously stored
  event (stored check events always carry a check) -/
  updateResult : Except GoErr (CheckEvent × Option CheckEvent)
  /-- switches.Alive result: none is success -/
  aliveResult : Option GoErr
  /-- switches.Bury result: none is success -/
  buryResult : Option GoErr
  /-- bus.Publish result: none is success -/
  publishResult : Option GoErr

/-- What one handleMessage call did: the event handed to UpdateEvent (none
when the store was never invoked), the Alive call with its (key, timeout)
argument, the Bury call with its key, the event handed to bus.Publish, and
the (event, error) pair handleMessage returns. -/
structure HMTrace where
  updateArg : Option Event
  aliveCalled : Option (String × Int)
  buryCalled : Option String
  published : Option Event
  result : Option Event × Option GoErr
  deriving DecidableEq, Repr

/-- handleMessage, transcribed from Eventd.handleMessage: type-check the
message, validate, short-circuit metrics-only events to the bus, create the
proxy entity, attach silenced entries, merge with the stored event, skip
liveness tracking for the keepalive check, arm the switch while TTL > 0
(an Alive error aborts the message), bury it when TTL was just disabled or
equals the deleted sentinel (a Bury error is only logged), and publish. -/
def handleMessage (env : HMEnv) : HMTrace :=
  match env.msg with
  | none =>
    { updateArg := none, aliveCalled := none, buryCalled := none,
      published := none, result := (none, some .other) }
  | some event =>
    if env.validateOk = false then
      { updateArg := none, aliveCalled := none, buryCalled := none,
        published := none, result := (some event, some .other) }
    else
      match event.check with
      | none =>
        -- the event does not contain a check: publish without writing to the store
        { updateArg := none, aliveCalled := none, buryCalled := none,
          published := some event, result := (some event, env.publishResult) }
      | some chk =>
        match env.proxyResult with
        | some err =>
          { updateArg := none, aliveCalled := none, buryCalled := none,
            published := none, result := (some event, some err) }
        | none =>
          let event := { event with check := some (applySilenced chk env.silencedEntries) }
          match env.updateResult with
          | .error err =>
            { updateArg := some event, aliveCalled := none, buryCalled := none,
              published := none, result := (none, some err) }
          | .ok (merged, prevEvent) =>
            let key := eventKey merged
            if merged.check.name = keepaliveCheckName then
              { updateArg := some event, aliveCalled := none, buryCalled := none,
                published := some merged.toEvent,
                result := (some merged.toEvent, env.publishResult) }
            else if 0 < merged.check.ttl then
              match env.aliveResult with
              | some err =>
                { updateArg := some event, aliveCalled := some (key, merged.check.ttl),
                  buryCalled := none, published := none,
                  result := (some merged.toEvent, some err) }
              | none =>
                { updateArg := some event, aliveCalled := some (key, merged.check.ttl),
                  buryCalled := none, published := some merged.toEvent,
                  result := (some merged.toEvent, env.publishResult) }
            else if (match prevEvent with
                     | some p => decide (0 < p.check.ttl)
                     | none => false) || decide (merged.check.ttl = deletedEventSentinel) then
              -- the check TTL has been disabled; a Bury error is only logged
              { updateArg := some event, aliveCalled := none, buryCalled := some key,
                published := some merged.toEvent,
                result := (some merged.toEvent, env.publishResult) }
            else
              { updateArg := some event, aliveCalled := none, buryCalled := none,
                published := some merged.toEvent,
                result := (some merged.toEvent, env.publishResult) }

/-! ## Failure event synthesis (createFailedCheckEvent, handleFailure) -/

/-- Modelled from the spec: corev2.NewCheck applied to
corev2.NewCheckConfigFromFace(c) copies the configuration fields of a check
and leaves every runtime field at its zero value. -/
def newCheckFromConfig (c : Check) : Check :=
  { name := c.name, nspace := c.nspace, command := c.command,
    interval := c.interval, ttl := c.ttl, roundRobin := c.roundRobin,
    status := 0, state := "", executed := 0, output := "",
    history := [], occurrences := 0, silenced := [], isSilenced := false }

/-- Modelled from the spec: Check.MergeWith merges the remaining unset
runtime fields of the receiver from the argument check, so fields the
synthesis did not override survive from the last stored check. -/
def mergeWith (c orig : Check) : Check :=
  { c with
    history := if c.history = [] then orig.history else c.history,
    occurrences := if c.occurrences = 0 then orig.occurrences else c.occurrences,
    silenced := if c.silenced = [] then orig.silenced else c.silenced,
    isSilenced := c.isSilenced || orig.isSilenced }

/-- The pure core of createFailedCheckEvent, applied to the event fetched
from the store for the (entity, check) pair: derive a new check from the
stored configuration, override output/status/state/executed, merge the rest
from the stored check, and restamp the event. Both time.Now() readings are
modelled by the one instant `now`. -/
def synthesizeFailedEvent (now : Int) (stored : CheckEvent) : CheckEvent :=
  let check := newCheckFromConfig stored.check
  let output := "Last check execution was " ++ toString (now - stored.check.executed) ++
    " seconds ago"
  let check := { check with
    output := output,
    status := 1,
    state := eventFailingState,
    executed := now }
  let check := mergeWith check stored.check
  { stored with timestamp := now, check := check }

/-- Oracle environment for one handleFailure call (which includes the
createFailedCheckEvent fetch). -/
structure HFEnv where
  /-- the expired event dead fetched and passed in (it always has a check:
  dead only escalates when GetEventByEntityCheck returned one) -/
  event : CheckEvent
  /-- time.Now().Unix() -/
  now : Int
  /-- GetEventByEntityCheck(ctx, entity.Name, check.Name) inside
  createFailedCheckEvent -/
  getEventResult : Except GoErr CheckEvent
  /-- eventStore.UpdateEvent on the synthesized event: the updated event -/
  updateResult : Except GoErr CheckEvent
  errChanFull : Bool
  cancelledDuringForward : Bool
  /-- bus.Publish result: none is success -/
  publishResult : Option GoErr

/-- What one handleFailure call did: whether the store fetch ran, the
synthesized failure event handed to UpdateEvent, the updated event handed to
bus.Publish, the fatal-error forwarding outcome (if any), and the error
handleFailure returns (none is nil). -/
structure HFTrace where
  fetched : Bool
  synthesized : Option CheckEvent
  published : Option CheckEvent
  fatalForward : Option SendOutcome
  result : Option GoErr
  deriving DecidableEq, Repr

/-- handleFailure, transcribed from Eventd.handleFailure and
Eventd.createFailedCheckEvent: keepalive-named checks return nil
immediately; otherwise fetch the stored event (internal errors are
forwarded), synthesize the failed-check event, persist it via UpdateEvent
(internal errors are forwarded), and publish the updated event. -/
def handleFailure (env : HFEnv) : HFTrace :=
  if env.event.check.name = keepaliveCheckName then
    { fetched := false, synthesized := none, published := none,
      fatalForward := none, result := none }
  else
    match env.getEventResult with
    | .error e =>
      { fetched := true, synthesized := none, published := none,
        fatalForward := forwardIfInternal e env.errChanFull env.cancelledDuringForward,
        result := some e }
    | .ok stored =>
      let failed := synthesizeFailedEvent env.now stored
      match env.updateResult with
      | .error e =>
        { fetched := true, synthesized := some failed, published := none,
          fatalForward := forwardIfInternal e env.errChanFull env.cancelledDuringForward,
          result := some e }
      | .ok updated =>
        { fetched := true, synthesized := some failed, published := some updated,
          fatalForward := none, result := env.publishResult }

/-! ## Worker loop: keepalive drain priority (startHandlers) -/

/-- One step of the cancellation clock: some n counts the select iterations
until ctx.Done() becomes ready. -/
def tickCancel : Option Nat → Option Nat
  | none => none
  | some n => some (n - 1)

/-- The drain loop a worker runs after receiving a primary message,
transcribed from the inner for/select of startHandlers: repeatedly perform a
non-blocking receive on the keepalive channel (modelled by the list of
messages queued there; an empty or closed channel both reach the DRAINED
label), handling each keepalive message found; if cancellation fires first
the worker returns without handling anything further; once the channel is
drained the primary message is handled. The returned list is the sequence of
messages handled, in order. -/
def drainLoop {α : Type} : Option Nat → List α → α → List α
  | some 0, _, _ => []
  | _, [], primary => [primary]
  | cancelAt, k :: ks, primary => k :: drainLoop (tickCancel cancelAt) ks primary

/-! ## Worker count (New, startHandlers) -/

/-- From New: `if c.WorkerCount == 0 { c.WorkerCount = 1 }`. -/
def newWorkerCount (configured : Int) : Int :=
  if configured = 0 then 1 else configured

/-- From startHandlers: `for i := 0; i < e.workerCount; i++` launches
max(workerCount, 0) worker goroutines. -/
def startedWorkers (workerCount : Int) : Nat :=
  workerCount.toNat

end Eventd

namespace Postgres

/-! ## Entity config wrapping (entity_configs_schema.go)

Go maps of strings are modelled by association lists; a nil map is
modelled by `none`. The JSON bytes held in the wrapper's Selectors and
Annotations columns are modelled by a structured value: json.Marshal of a
nil map yields null, of a non-nil map an object; json.Unmarshal of null
into a freshly made empty map is a no-op, and of an object stores the
entries into it. -/

abbrev StrMap := List (String × String)

inductive JsonValue
  | null
  | obj (entries : StrMap)
  deriving DecidableEq, Repr

def jsonMarshalMap : Option StrMap → JsonValue
  | none => .null
  | some m => .obj m

def jsonUnmarshalIntoMap (j : JsonValue) (dst : StrMap) : StrMap :=
  match j with
  | .null => dst
  | .obj m => dst ++ m

/-- strings.HasPrefix at the Char level. -/
def goHasPrefix (p s : String) : Bool :=
  p.data.isPrefixOf s.data

/-- strings.TrimPrefix at the Char level. -/
def goTrimPrefix (p s : String) : String :=
  if goHasPrefix p s then String.mk (s.data.drop p.data.length) else s

/-- corev2.ObjectMeta as the wrapper uses it. -/
structure ObjectMeta where
  nspace : String
  name : String
  createdBy : String
  labels : Option StrMap
  annotations : Option StrMap
  deriving DecidableEq, Repr

/-- corev3.EntityConfig as the wrapper uses it (Deregistration.Handler is
flattened into one field). -/
structure EntityConfig where
  metadata : ObjectMeta
  entityClass : String
  user : String
  subscriptions : List String
  deregister : Bool
  deregistration : String
  keepaliveHandlers : List String
  redact : List String
  deriving DecidableEq, Repr

/-- EntityConfigWrapper: the postgres row shape. -/
structure EntityConfigWrapper where
  nspace : String
  name : String
  selectors : JsonValue
  annotations : JsonValue
  createdBy : String
  entityClass : String
  user : String
  subscriptions : List String
  deregister : Bool
  deregistration : String
  keepaliveHandlers : List String
  redact : List String
  deriving DecidableEq, Repr

/-- WrapEntityConfig: marshal the annotations, build the selector map by
prefixing every label key with "labels." (ranging over a nil label map adds
nothing, and the freshly made selector map is never nil), and copy the
remaining fields. -/
def WrapEntityConfig (cfg : EntityConfig) : EntityConfigWrapper :=
  let meta := cfg.metadata
  let annotations := jsonMarshalMap meta.annotations
  let selectorMap := (meta.labels.getD []).map (fun kv => ("labels." ++ kv.1, kv.2))
  let selectors := jsonMarshalMap (some selectorMap)
  { nspace := meta.nspace,
    name := meta.name,
    selectors := selectors,
    annotations := annotations,
    createdBy := meta.createdBy,
    entityClass := cfg.entityClass,
    user := cfg.user,
    subscriptions := cfg.subscriptions,
    deregister := cfg.deregister,
    deregistration := cfg.deregistration,
    keepaliveHandlers := cfg.keepaliveHandlers,
    redact := cfg.redact }

/-- unwrapIntoEntityConfig: build the metadata with freshly made empty
label and annotation maps, unmarshal the annotations and selectors, keep
exactly the selector entries whose key has the "labels." prefix (stripping
it), and copy the remaining fields. -/
def unwrapIntoEntityConfig (w : EntityConfigWrapper) : EntityConfig :=
  let annotations := jsonUnmarshalIntoMap w.annotations []
  let selectors := jsonUnmarshalIntoMap w.selectors []
  let labels := selectors.filterMap (fun kv =>
    if goHasPrefix "labels." kv.1 then some (goTrimPrefix "labels." kv.1, kv.2) else none)
  { metadata :=
      { nspace := w.nspace,
        name := w.name,
        createdBy := w.createdBy,
        labels := some labels,
        annotations := some annotations },
    entityClass := w.entityClass,
    user := w.user,
    subscriptions := w.subscriptions,
    deregister := w.deregister,
    deregistration := w.deregistration,
    keepaliveHandlers := w.keepaliveHandlers,
    redact := w.redact }

end Postgres

namespace Eventd

/-- C1: the dead callback returns "bury" / "do not bury" exactly as the
claim states: "do not bury" on a cancelled context or an unparsable key;
"bury" for a round-robin key with no entity component; otherwise "bury"
exactly when the entity config no longer exists, or the latest keepalive
event exists with nonzero status, or no (entity, check) event exists, and
"do not bury" in every other case (retrieval errors and the leader
escalation path included). -/
theorem dead_matches_claim (env : DeadEnv) : (dead env).bury = deadSpecified env := by
  rcases env with ⟨cancelled, key, leader, entityGet, keepaliveGet, eventGet, full, cdf, hfe⟩
  cases cancelled
  · simp only [dead, deadSpecified, Bool.false_eq_true, if_false]
    cases hp : parseKey key with
    | none => rfl
    | some t =>
      obtain ⟨ns, c, entity⟩ := t
      by_cases he : entity = ""
      · simp [he]
      · simp only [he, if_false, entityConfigGone, keepaliveFailing, checkEventMissing]
        cases entityGet with
        | error e =>
          cases e <;> simp [forwardIfInternal]
        | ok u =>
          cases keepaliveGet with
          | error e => simp
          | ok kl =>
            cases kl with
            | none =>
              simp only [decide_eq_true_eq, Bool.false_or]
              cases eventGet with
              | error e => simp
              | ok evo => cases evo <;> cases leader <;> simp
            | some k =>
              by_cases hs : 0 < k.check.status
              · simp [hs]
              · have hd : (decide (0 < k.check.status)) = false := by simpa using hs
                simp only [hd, Bool.false_or, if_false]
                cases eventGet with
                | error e => simp
                | ok evo => cases evo <;> cases leader <;> simp
  · simp [dead, deadSpecified]

/-- C4: a valid event without a check never reaches UpdateEvent, triggers no
Alive or Bury call, and is published unchanged, handleMessage returning that
same event together with the publish outcome. -/
theorem metrics_only_bypasses_store (env : HMEnv) (ev : Event)
    (hmsg : env.msg = some ev) (hval : env.validateOk = true)
    (hck : ev.check = none) :
    (handleMessage env).updateArg = none ∧
    (handleMessage env).aliveCalled = none ∧
    (handleMessage env).buryCalled = none ∧
    (handleMessage env).published = some ev ∧
    (handleMessage env).result = (some ev, env.publishResult) := by
  simp [handleMessage, hmsg, hval, hck]

theorem metrics_only_bypasses_store_witness :
    (handleMessage
      { msg := some { entity := ⟨"default", "e1", "agent"⟩, check := none, timestamp := 5 },
        validateOk := true, proxyResult := none, silencedEntries := [],
        updateResult := .error .other, aliveResult := none, buryResult := none,
        publishResult := none }).published =
      some { entity := ⟨"default", "e1", "agent"⟩, check := none, timestamp := 5 } :=
  (metrics_only_bypasses_store _ _ rfl rfl rfl).2.2.2.1

end Eventd

namespace Eventd

/-- C5: the switch key omits the entity name exactly when the check is
round-robin and the entity class is not proxy; otherwise it is
namespace/checkName/entityName (with the respective namespace fields of the
check and the entity). -/
theorem eventKey_spec (ev : CheckEvent)
    (h1 : ev.check.nspace ≠ "") (h2 : ev.check.name ≠ "")
    (h3 : ev.entity.nspace ≠ "") (h4 : ev.entity.name ≠ "") :
    (ev.check.roundRobin = true → ev.entity.entityClass ≠ entityProxyClass →
      eventKey ev = ev.check.nspace ++ "/" ++ ev.check.name) ∧
    (ev.check.roundRobin = false ∨ ev.entity.entityClass = entityProxyClass →
      eventKey ev = ev.entity.nspace ++ "/" ++ ev.check.name ++ "/" ++ ev.entity.name) := by
  have e1 : (ev.check.nspace == "") = false := beq_eq_false_iff_ne.mpr h1
  have e2 : (ev.check.name == "") = false := beq_eq_false_iff_ne.mpr h2
  have e3 : (ev.entity.nspace == "") = false := beq_eq_false_iff_ne.mpr h3
  have e4 : (ev.entity.name == "") = false := beq_eq_false_iff_ne.mpr h4
  constructor
  · intro hr hc
    have hb : (ev.entity.entityClass == entityProxyClass) = false := by
      simpa using hc
    simp [eventKey, hr, hb, pathJoin, joinNonempty, List.filter, e1, e2]
  · intro h
    have hcond : (ev.check.roundRobin && !(ev.entity.entityClass == entityProxyClass)) = false := by
      rcases h with h | h
      · simp [h]
      · simp [h]
    rw [eventKey, hcond]
    simp only [Bool.false_eq_true, if_false, pathJoin, List.filter]
    simp [e2, e3, e4, joinNonempty, String.append_assoc]

end Eventd

namespace Eventd

def rrCheck : Check :=
  { name := "c1", nspace := "ns", command := "date", interval := 60, ttl := 0,
    roundRobin := true, status := 0, state := "", executed := 0, output := "",
    history := [], occurrences := 0, silenced := [], isSilenced := false }

theorem eventKey_spec_witness :
    eventKey { entity := ⟨"ns2", "e1", "agent"⟩, check := rrCheck, timestamp := 0 } = "ns/c1" ∧
    eventKey { entity := ⟨"ns2", "e1", "proxy"⟩, check := rrCheck, timestamp := 0 } =
      "ns2" ++ "/" ++ "c1" ++ "/" ++ "e1" := by
  constructor
  · have h := eventKey_spec { entity := ⟨"ns2", "e1", "agent"⟩, check := rrCheck, timestamp := 0 }
      (by decide) (by decide) (by decide) (by decide)
    exact h.1 rfl (by decide)
  · have h := eventKey_spec { entity := ⟨"ns2", "e1", "proxy"⟩, check := rrCheck, timestamp := 0 }
      (by decide) (by decide) (by decide) (by decide)
    exact h.2 (Or.inr rfl)

/-- C2: for a processed check event whose merged check is not the keepalive
check: if TTL > 0, Alive is called with the derived key and the TTL, and an
Alive error is returned without publishing; otherwise, if the previous
stored event had TTL > 0 or the TTL equals the deleted sentinel, Bury is
called with the derived key and the event is published whatever the Bury
outcome; otherwise neither switch call happens. -/
theorem ttl_switch_spec (env : HMEnv) (ev : Event) (chk : Check)
    (merged : CheckEvent) (prev : Option CheckEvent)
    (hmsg : env.msg = some ev) (hval : env.validateOk = true)
    (hck : ev.check = some chk) (hproxy : env.proxyResult = none)
    (hupd : env.updateResult = .ok (merged, prev))
    (hka : merged.check.name ≠ keepaliveCheckName) :
    (0 < merged.check.ttl →
      (handleMessage env).aliveCalled = some (eventKey merged, merged.check.ttl) ∧
      (handleMessage env).buryCalled = none ∧
      (∀ err, env.aliveResult = some err →
        (handleMessage env).published = none ∧
        (handleMessage env).result = (some merged.toEvent, some err)) ∧
      (env.aliveResult = none →
        (handleMessage env).published = some merged.toEvent)) ∧
    (¬ 0 < merged.check.ttl →
      (((∃ p, prev = some p ∧ 0 < p.check.ttl) ∨ merged.check.ttl = deletedEventSentinel) →
        (handleMessage env).buryCalled = some (eventKey merged) ∧
        (handleMessage env).aliveCalled = none ∧
        (handleMessage env).published = some merged.toEvent ∧
        (handleMessage env).result = (some merged.toEvent, env.publishResult)) ∧
      (¬((∃ p, prev = some p ∧ 0 < p.check.ttl) ∨ merged.check.ttl = deletedEventSentinel) →
        (handleMessage env).aliveCalled = none ∧
        (handleMessage env).buryCalled = none ∧
        (handleMessage env).published = some merged.toEvent)) := by
  constructor
  · intro htl
    refine ⟨?_, ?_, ?_, ?_⟩
    · cases ha : env.aliveResult <;>
        simp [handleMessage, hmsg, hval, hck, hproxy, hupd, hka, htl, ha]
    · cases ha : env.aliveResult <;>
        simp [handleMessage, hmsg, hval, hck, hproxy, hupd, hka, htl, ha]
    · intro err herr
      simp [handleMessage, hmsg, hval, hck, hproxy, hupd, hka, htl, herr]
    · intro ha
      simp [handleMessage, hmsg, hval, hck, hproxy, hupd, hka, htl, ha]
  · intro htl
    cases hp : prev with
    | none =>
      subst hp
      constructor
      · intro hbury
        rcases hbury with ⟨p, hp2, _⟩ | hsent
        · exact absurd hp2 (by simp)
        · simp [handleMessage, hmsg, hval, hck, hproxy, hupd, hka, htl, hsent,
            deletedEventSentinel]
      · intro hnb
        push_neg at hnb
        simp [handleMessage, hmsg, hval, hck, hproxy, hupd, hka, htl, hnb.2]
    | some p =>
      subst hp
      constructor
      · intro hbury
        rcases hbury with ⟨q, hq, hqt⟩ | hsent
        · have hq2 : q = p := by injection hq.symm
          subst hq2
          simp [handleMessage, hmsg, hval, hck, hproxy, hupd, hka, htl, hqt]
        · simp [handleMessage, hmsg, hval, hck, hproxy, hupd, hka, htl, hsent,
            deletedEventSentinel]
      · intro hnb
        push_neg at hnb
        have hpt : ¬ 0 < p.check.ttl := not_lt.mpr (hnb.1 p rfl)
        simp [handleMessage, hmsg, hval, hck, hproxy, hupd, hka, htl, hpt, hnb.2]

end Eventd

namespace Eventd

def chkTtl : Check :=
  { name := "c1", nspace := "ns", command := "date", interval := 60, ttl := 30,
    roundRobin := false, status := 0, state := "passing", executed := 100, output := "ok",
    history := [0, 0], occurrences := 2, silenced := [], isSilenced := false }

def mergedTtl : CheckEvent :=
  { entity := ⟨"ns", "e1", "agent"⟩, check := chkTtl, timestamp := 7 }

def envTtl : HMEnv :=
  { msg := some { entity := ⟨"ns", "e1", "agent"⟩, check := some chkTtl, timestamp := 7 },
    validateOk := true, proxyResult := none, silencedEntries := [],
    updateResult := .ok (mergedTtl, none), aliveResult := none, buryResult := none,
    publishResult := none }

theorem ttl_switch_spec_witness :
    0 < mergedTtl.check.ttl ∧
    (handleMessage envTtl).aliveCalled = some (eventKey mergedTtl, mergedTtl.check.ttl) ∧
    (handleMessage envTtl).published = some mergedTtl.toEvent := by
  have h := ttl_switch_spec envTtl
    { entity := ⟨"ns", "e1", "agent"⟩, check := some chkTtl, timestamp := 7 } chkTtl
    mergedTtl none rfl rfl rfl rfl rfl (by decide)
  exact ⟨by decide, (h.1 (by decide)).1, (h.1 (by decide)).2.2.2 rfl⟩

/-- C6: an event whose merged check is keepalive-named triggers neither an
Alive nor a Bury call in handleMessage, and handleFailure on a
keepalive-named event returns nil immediately without fetching,
synthesizing, persisting or publishing anything. -/
theorem keepalive_never_ttl_tracked (env : HMEnv) (ev : Event) (chk : Check)
    (merged : CheckEvent) (prev : Option CheckEvent) (hfenv : HFEnv)
    (hmsg : env.msg = some ev) (hval : env.validateOk = true)
    (hck : ev.check = some chk) (hproxy : env.proxyResult = none)
    (hupd : env.updateResult = .ok (merged, prev))
    (hka : merged.check.name = keepaliveCheckName)
    (hf : hfenv.event.check.name = keepaliveCheckName) :
    (handleMessage env).aliveCalled = none ∧
    (handleMessage env).buryCalled = none ∧
    handleFailure hfenv =
      { fetched := false, synthesized := none, published := none,
        fatalForward := none, result := none } := by
  refine ⟨?_, ?_, ?_⟩ <;> simp [handleMessage, handleFailure, hmsg, hval, hck, hproxy, hupd, hka, hf]

def kaCheck : Check :=
  { name := "keepalive", nspace := "ns", command := "", interval := 20, ttl := 120,
    roundRobin := false, status := 0, state := "passing", executed := 100, output := "",
    history := [], occurrences := 1, silenced := [], isSilenced := false }

def kaMerged : CheckEvent :=
  { entity := ⟨"ns", "e1", "agent"⟩, check := kaCheck, timestamp := 7 }

theorem keepalive_never_ttl_tracked_witness :
    (handleMessage
      { msg := some { entity := ⟨"ns", "e1", "agent"⟩, check := some kaCheck, timestamp := 7 },
        validateOk := true, proxyResult := none, silencedEntries := [],
        updateResult := .ok (kaMerged, none), aliveResult := none, buryResult := none,
        publishResult := none }).aliveCalled = none ∧
    handleFailure
      { event := kaMerged, now := 500, getEventResult := .ok kaMerged,
        updateResult := .ok kaMerged, errChanFull := false,
        cancelledDuringForward := false, publishResult := none } =
      { fetched := false, synthesized := none, published := none,
        fatalForward := none, result := none } := by
  have h := keepalive_never_ttl_tracked
    { msg := some { entity := ⟨"ns", "e1", "agent"⟩, check := some kaCheck, timestamp := 7 },
      validateOk := true, proxyResult := none, silencedEntries := [],
      updateResult := .ok (kaMerged, none), aliveResult := none, buryResult := none,
      publishResult := none }
    { entity := ⟨"ns", "e1", "agent"⟩, check := some kaCheck, timestamp := 7 } kaCheck
    kaMerged none
    { event := kaMerged, now := 500, getEventResult := .ok kaMerged,
      updateResult := .ok kaMerged, errChanFull := false,
      cancelledDuringForward := false, publishResult := none }
    rfl rfl rfl rfl rfl rfl rfl
  exact ⟨h.1, h.2.2⟩

end Eventd

namespace Eventd

/-- C3: the synthesized failure event carries Status 1, State failing,
Executed and Timestamp stamped at now, the elapsed-seconds Output computed
from the stored check's Executed, and every other check field (configuration
and runtime alike) preserved from the last stored check, on the stored
entity. -/
theorem failure_synthesis_spec (env : HFEnv) (stored : CheckEvent)
    (hk : env.event.check.name ≠ keepaliveCheckName)
    (hg : env.getEventResult = .ok stored) :
    (handleFailure env).synthesized = some (synthesizeFailedEvent env.now stored) ∧
    ((synthesizeFailedEvent env.now stored).check.status = 1 ∧
     (synthesizeFailedEvent env.now stored).check.state = eventFailingState ∧
     (synthesizeFailedEvent env.now stored).check.executed = env.now ∧
     (synthesizeFailedEvent env.now stored).check.output =
       "Last check execution was " ++ toString (env.now - stored.check.executed) ++
         " seconds ago" ∧
     (synthesizeFailedEvent env.now stored).timestamp = env.now) ∧
    ((synthesizeFailedEvent env.now stored).entity = stored.entity ∧
     (synthesizeFailedEvent env.now stored).check.name = stored.check.name ∧
     (synthesizeFailedEvent env.now stored).check.nspace = stored.check.nspace ∧
     (synthesizeFailedEvent env.now stored).check.command = stored.check.command ∧
     (synthesizeFailedEvent env.now stored).check.interval = stored.check.interval ∧
     (synthesizeFailedEvent env.now stored).check.ttl = stored.check.ttl ∧
     (synthesizeFailedEvent env.now stored).check.roundRobin = stored.check.roundRobin ∧
     (synthesizeFailedEvent env.now stored).check.history = stored.check.history ∧
     (synthesizeFailedEvent env.now stored).check.silenced = stored.check.silenced ∧
     (synthesizeFailedEvent env.now stored).check.occurrences = stored.check.occurrences) := by
  refine ⟨?_, ?_, ?_⟩
  · cases hu : env.updateResult <;> simp [handleFailure, hk, hg, hu]
  · simp [synthesizeFailedEvent, newCheckFromConfig, mergeWith]
  · simp [synthesizeFailedEvent, newCheckFromConfig, mergeWith]

def storedC3 : CheckEvent :=
  { entity := ⟨"ns", "e1", "agent"⟩,
    check := { name := "c1", nspace := "ns", command := "date", interval := 60,
               ttl := 30, roundRobin := false, status := 0, state := "passing",
               executed := 100, output := "ok", history := [0, 0], occurrences := 4,
               silenced := ["s1"], isSilenced := false },
    timestamp := 101 }

theorem failure_synthesis_spec_witness :
    (handleFailure
      { event := storedC3, now := 160, getEventResult := .ok storedC3,
        updateResult := .ok storedC3, errChanFull := false,
        cancelledDuringForward := false, publishResult := none }).synthesized =
      some (synthesizeFailedEvent 160 storedC3) ∧
    (synthesizeFailedEvent 160 storedC3).check.output =
      "Last check execution was 60 seconds ago" := by
  have h := failure_synthesis_spec
    { event := storedC3, now := 160, getEventResult := .ok storedC3,
      updateResult := .ok storedC3, errChanFull := false,
      cancelledDuringForward := false, publishResult := none }
    storedC3 (by decide) rfl
  exact ⟨h.1, by decide⟩

end Eventd

namespace Eventd

def envFullChan : DeadEnv :=
  { cancelled := false, key := "default/c1/e1", leader := false,
    entityGet := .error .internal, keepaliveGet := .ok none, eventGet := .ok none,
    errChanFull := true, cancelledDuringForward := false, handleFailureErr := none }

/-- C7 counterexample: with the fatal-error channel already holding an error
and the context not cancelled, the internal-error forwarding inside dead
blocks (the select has no default case) instead of dropping the duplicate
and proceeding. -/
theorem fatal_forward_counterexample :
    envFullChan.errChanFull = true ∧
    envFullChan.cancelledDuringForward = false ∧
    (dead envFullChan).fatalForward = some SendOutcome.blocked ∧
    (dead envFullChan).fatalForward ≠ some SendOutcome.droppedOnCancel := by decide

/-- C7 amended: an internal store error from the entity-config or the
(entity, check) event retrieval is forwarded to the capacity-1 fatal-error
channel through a select that races context cancellation: sent immediately
when the channel is free; when the channel already holds an error the
callback waits until the channel is drained or the context is cancelled
(only then is the duplicate dropped); in either case dead then returns "do
not bury". -/
theorem fatal_forward_amended (env : DeadEnv) (ns c ent : String)
    (h1 : env.cancelled = false)
    (h2 : parseKey env.key = some (ns, c, ent))
    (h3 : ent ≠ "") :
    errChanCapacity = 1 ∧
    (env.entityGet = .error .internal →
      (dead env).fatalForward =
        some (fatalErrSelect env.errChanFull env.cancelledDuringForward) ∧
      (dead env).bury = false) ∧
    (∀ kl, env.entityGet = .ok () → env.keepaliveGet = .ok kl →
      (match kl with | some k => ¬ 0 < k.check.status | none => True) →
      env.eventGet = .error .internal →
      (dead env).fatalForward =
        some (fatalErrSelect env.errChanFull env.cancelledDuringForward) ∧
      (dead env).bury = false) ∧
    (env.errChanFull = false →
      fatalErrSelect env.errChanFull env.cancelledDuringForward = .sent) ∧
    (env.errChanFull = true → env.cancelledDuringForward = true →
      fatalErrSelect env.errChanFull env.cancelledDuringForward = .droppedOnCancel) ∧
    (env.errChanFull = true → env.cancelledDuringForward = false →
      fatalErrSelect env.errChanFull env.cancelledDuringForward = .blocked) := by
  refine ⟨rfl, ?_, ?_, ?_, ?_, ?_⟩
  · intro hi
    simp [dead, h1, h2, h3, hi, forwardIfInternal]
  · intro kl hok hkl hks hev
    cases kl with
    | none => simp [dead, h1, h2, h3, hok, hkl, hev, forwardIfInternal]
    | some k =>
      have : (decide (0 < k.check.status)) = false := by simpa using hks
      simp [dead, h1, h2, h3, hok, hkl, hev, this, forwardIfInternal]
  · intro hfree; simp [fatalErrSelect, hfree]
  · intro hfull hcan; simp [fatalErrSelect, hfull, hcan]
  · intro hfull hcan; simp [fatalErrSelect, hfull, hcan]

theorem fatal_forward_amended_witness :
    (dead envFullChan).fatalForward = some (fatalErrSelect true false) ∧
    (dead envFullChan).bury = false := by
  have h := fatal_forward_amended envFullChan "default" "c1" "e1" rfl (by decide) (by decide)
  exact h.2.1 rfl

end Eventd

namespace Eventd

/-- C8: within one worker iteration, every keepalive message already queued
is handled, in order, before the primary message; draining stops exactly
when the queue is exhausted (empty or closed channel) — after which the
primary message is handled — or when cancellation fires first, in which case
the worker returns and handles nothing further. -/
theorem drain_priority {α : Type} (kq : List α) (p : α) :
    drainLoop none kq p = kq ++ [p] ∧
    (∀ n, n ≤ kq.length → drainLoop (some n) kq p = kq.take n) ∧
    (∀ n, kq.length < n → drainLoop (some n) kq p = kq ++ [p]) := by
  refine ⟨?_, ?_, ?_⟩
  · induction kq with
    | nil => rfl
    | cons k ks ih => simp [drainLoop, tickCancel, ih]
  · intro n hn
    induction kq generalizing n with
    | nil =>
      have h0 : n = 0 := by simpa using hn
      subst h0
      rfl
    | cons k ks ih =>
      cases n with
      | zero => rfl
      | succ m =>
        have hm : m ≤ ks.length := by simpa using hn
        simp [drainLoop, tickCancel, ih m hm]
  · intro n hn
    induction kq generalizing n with
    | nil =>
      obtain ⟨m, rfl⟩ : ∃ m, n = m + 1 := ⟨n - 1, by omega⟩
      rfl
    | cons k ks ih =>
      cases n with
      | zero => exact absurd hn (by simp)
      | succ m =>
        have hm : ks.length < m := by simpa using hn
        simp [drainLoop, tickCancel, ih m hm]

theorem drain_priority_witness :
    drainLoop none [10, 11, 12] 99 = [10, 11, 12, 99] ∧
    drainLoop (some 2) [10, 11, 12] 99 = [10, 11] ∧
    drainLoop (some 5) [10, 11, 12] 99 = [10, 11, 12, 99] :=
  ⟨(drain_priority [10, 11, 12] 99).1,
   (drain_priority [10, 11, 12] 99).2.1 2 (by decide),
   (drain_priority [10, 11, 12] 99).2.2 5 (by decide)⟩

def negativeWorkers : Int := -1

/-- C9 counterexample: New replaces only a zero WorkerCount; a negative
configured worker count is kept as-is, is not at least 1, and startHandlers
then launches zero processing loops. -/
theorem worker_count_counterexample :
    newWorkerCount negativeWorkers = -1 ∧
    ¬ 1 ≤ newWorkerCount negativeWorkers ∧
    startedWorkers (newWorkerCount negativeWorkers) = 0 := by decide

/-- C9 amended: a worker count of exactly 0 is replaced with 1 (with a
warning); startHandlers launches max(workerCount, 0) loops, so for every
non-negative configured worker count the effective count is at least 1 and
at least one (and exactly the effective count of) processing loops start. -/
theorem worker_count_amended (c : Int) (h : 0 ≤ c) :
    1 ≤ newWorkerCount c ∧
    startedWorkers (newWorkerCount c) = (newWorkerCount c).toNat ∧
    1 ≤ startedWorkers (newWorkerCount c) ∧
    (c = 0 → newWorkerCount c = 1) ∧
    (0 < c → newWorkerCount c = c) := by
  by_cases hc : c = 0
  · simp [newWorkerCount, startedWorkers, hc]
  · simp only [newWorkerCount, startedWorkers, hc, if_false]
    refine ⟨by omega, by simp, by omega, fun h => h.elim, fun _ => trivial⟩

theorem worker_count_amended_witness :
    1 ≤ newWorkerCount 0 ∧ 1 ≤ newWorkerCount 4 ∧
    startedWorkers (newWorkerCount 4) = 4 := by
  refine ⟨(worker_count_amended 0 (by decide)).1, (worker_count_amended 4 (by decide)).1, ?_⟩
  have h := (worker_count_amended 4 (by decide)).2.1
  simpa using h

end Eventd

namespace Postgres

theorem listIsPrefixOf_append (p k : List Char) : p.isPrefixOf (p ++ k) = true := by
  induction p with
  | nil => simp [List.isPrefixOf]
  | cons a as ih => simp [List.isPrefixOf, ih]

theorem goHasPrefix_append (p k : String) : goHasPrefix p (p ++ k) = true := by
  simp [goHasPrefix, String.data_append, listIsPrefixOf_append]

theorem goTrimPrefix_append (p k : String) : goTrimPrefix p (p ++ k) = k := by
  simp only [goTrimPrefix, goHasPrefix_append, if_true]
  rw [String.data_append, List.drop_left]

theorem labels_roundtrip (L : StrMap) :
    (L.map (fun kv => ("labels." ++ kv.1, kv.2))).filterMap (fun kv =>
      if goHasPrefix "labels." kv.1 then some (goTrimPrefix "labels." kv.1, kv.2)
      else none) = L := by
  induction L with
  | nil => rfl
  | cons kv rest ih =>
    simp [List.filterMap_cons, goHasPrefix_append, goTrimPrefix_append, ih]

/-- C10: for an EntityConfig whose label and annotation maps are non-nil,
unwrapping the wrapper produced by WrapEntityConfig returns the original
EntityConfig: namespace, name, created-by, entity class, user,
subscriptions, deregister, deregistration handler, keepalive handlers,
redact, labels and annotations all round-trip. -/
theorem wrap_unwrap_roundtrip (cfg : EntityConfig) (L A : StrMap)
    (hL : cfg.metadata.labels = some L) (hA : cfg.metadata.annotations = some A) :
    unwrapIntoEntityConfig (WrapEntityConfig cfg) = cfg := by
  rcases cfg with ⟨⟨ns, nm, cb, lab, ann⟩, ec, us, subs, dereg, deregh, kh, rd⟩
  simp only at hL hA
  subst hL hA
  simp only [WrapEntityConfig, unwrapIntoEntityConfig, jsonMarshalMap, jsonUnmarshalIntoMap,
    List.nil_append, Option.getD_some, labels_roundtrip]

def cfgSample : EntityConfig :=
  { metadata :=
      { nspace := "default", name := "e1", createdBy := "admin",
        labels := some [("region", "eu"), ("ostype", "linux")],
        annotations := some [("owner", "team-a")] },
    entityClass := "agent", user := "agentuser",
    subscriptions := ["linux", "entity:e1"], deregister := true,
    deregistration := "dhandler", keepaliveHandlers := ["slack"],
    redact := ["password"] }

theorem wrap_unwrap_roundtrip_witness :
    cfgSample.metadata.labels = some [("region", "eu"), ("ostype", "linux")] ∧
    unwrapIntoEntityConfig (WrapEntityConfig cfgSample) = cfgSample :=
  ⟨rfl, wrap_unwrap_roundtrip cfgSample [("region", "eu"), ("ostype", "linux")]
    [("owner", "team-a")] rfl rfl⟩

end Postgres
